import Mathlib

/-
Verification of the dashboard aggregation layer (`src/dashboard_builder.py`,
plus the deal-loading team default of `src/connectors.py`).

Shallow embedding conventions:
* A pandas DataFrame is a `List` of records; each record type carries exactly
  the columns the aggregations read (extra DataFrame columns are never touched
  by the functions under study).
* Numeric cells are `ℚ`.  Results of float division are modelled by `PVal`,
  which adds the IEEE-754 specials produced by numpy: `x / 0 = ±inf` for
  `x ≠ 0` and `0 / 0 = nan`.  `Series.fillna(0)` (and the preceding
  `.replace([pd.NA, pd.NaT], 0)`) replaces `nan` only; infinities pass through.
* `pd.to_datetime(col, errors="coerce")` is modelled by the `date` cell already
  being `Option Date`: `none` is `NaT` (an unparseable or missing date).
  `.dt.to_period("M").astype(str)` renders `NaT` as the string "NaT" and a
  parsed date as "YYYY-MM" (pandas Timestamps range 1677..2262, so the year
  always has four digits); `.dt.year` yields `none` (NaN) for `NaT`.
* `groupby(k, as_index=False).agg(...)` with pandas defaults: one output row
  per distinct key, keys sorted ascending, rows with a null key dropped
  (`dropna=True`).  `sort_values` is modelled as a stable sort.
* An outer `merge` on `"team"` unions the keys sorted lexicographically
  (pandas `how="outer"` sorts the join keys); `.fillna(0)` turns the cells
  missing from one side into 0.
* The Python heap is modelled, where mutation matters, by an explicit store of
  objects (`Store`); `df.copy()` allocates, column assignment writes in place.
-/

namespace Dashboard

/-- Result of a numpy/pandas float operation: a finite rational or one of the
IEEE specials that division by zero can produce. -/
inductive PVal where
  | num (q : ℚ)
  | inf
  | ninf
  | nan
deriving DecidableEq, Repr

/-- Float division of two finite cells, numpy semantics: `x / 0` is `±inf`
for `x ≠ 0`, `0 / 0` is `nan`, otherwise exact. -/
def fdiv (a b : ℚ) : PVal :=
  if b = 0 then (if a = 0 then .nan else if 0 < a then .inf else .ninf)
  else .num (a / b)

/-- `Series.fillna(0)` (also `.replace([pd.NA, pd.NaT], 0)`): `nan` becomes 0,
everything else — infinities included — passes through. -/
def PVal.fillna0 : PVal → PVal
  | .nan => .num 0
  | v => v

/-- Multiplication of a float cell by the finite positive constant 100. -/
def PVal.mul100 : PVal → PVal
  | .num q => .num (q * 100)
  | .inf => .inf
  | .ninf => .ninf
  | .nan => .nan

/-- Division of a float cell by a finite rational (IEEE semantics; the code
only reaches this with a nonzero divisor). -/
def PVal.divQ : PVal → ℚ → PVal
  | .num q, c => fdiv q c
  | .inf, c => if c < 0 then .ninf else .inf
  | .ninf, c => if c < 0 then .inf else .ninf
  | .nan, _ => .nan

/-- A parsed calendar date, reduced to the fields the aggregations use. -/
structure Date where
  year : Nat
  month : Nat
deriving DecidableEq, Repr

/-- Two-digit zero-padded decimal rendering (month part of a period string). -/
def monthChars (n : Nat) : List Char :=
  [Nat.digitChar (n / 10 % 10), Nat.digitChar (n % 10)]

/-- Four-digit zero-padded decimal rendering (year part of a period string;
pandas Timestamp years lie in 1677..2262, so four digits are exact there). -/
def yearChars (n : Nat) : List Char :=
  [Nat.digitChar (n / 1000 % 10), Nat.digitChar (n / 100 % 10),
   Nat.digitChar (n / 10 % 10), Nat.digitChar (n % 10)]

/-- `pd.to_datetime(date, errors="coerce").dt.to_period("M").astype(str)`:
"YYYY-MM" for a parsed date, the literal string "NaT" otherwise. -/
def monthKey : Option Date → String
  | none => "NaT"
  | some d => ⟨yearChars d.year ++ '-' :: monthChars d.month⟩

/-- `pd.to_datetime(date, errors="coerce").dt.year`: `none` is NaN. -/
def yearKey : Option Date → Option Nat
  | none => none
  | some d => some d.year

/-- Boolean lexicographic comparison of char lists (Python string `<`). -/
def charsLtB : List Char → List Char → Bool
  | [], [] => false
  | [], _ :: _ => true
  | _ :: _, [] => false
  | a :: as, b :: bs => if a < b then true else if b < a then false else charsLtB as bs

/-- Boolean string `<` (code-point lexicographic, as Python compares keys). -/
def strLtB (s t : String) : Bool := charsLtB s.data t.data

/-- Boolean string `≤` derived from `strLtB`. -/
def strLeB (s t : String) : Bool := !(strLtB t s)

/-- Stable insertion of `x` into `l`: `x` goes in front of the first element
that does not strictly precede it under `le`, so equal elements keep their
original relative order. -/
def sIns (le : α → α → Bool) (x : α) : List α → List α
  | [] => [x]
  | y :: ys => if le y x && !(le x y) then y :: sIns le x ys else x :: y :: ys

/-- Sort by the boolean preorder `le`; models pandas `sort_values` and the
ascending key order of `groupby(sort=True)`.  pandas `sort_values` defaults
to numpy's unstable quicksort, whose tie order is an unspecified artifact of
introsort: this stable sort is a determinization of it, and no theorem relies
on the relative order of `le`-equivalent elements. -/
def sSort (le : α → α → Bool) : List α → List α
  | [] => []
  | x :: xs => sIns le x (sSort le xs)

/-- The distinct keys of a grouping column (order irrelevant: the callers sort
the result). -/
def dedupK [DecidableEq α] : List α → List α
  | [] => []
  | a :: as => if a ∈ dedupK as then dedupK as else a :: dedupK as

/-- An Invoice record, restricted to the columns the aggregations read.
`date` is the result of the coercing parse: `none` is NaT. -/
structure Invoice where
  date : Option Date
  total : ℚ
  amount_paid : ℚ
  amount_due : ℚ
deriving DecidableEq, Repr

/-- A row of the `monthly_billing` output. -/
structure MBRow where
  month : String
  total_billed : ℚ
  amount_collected : ℚ
  outstanding : ℚ
deriving DecidableEq, Repr

/-- Group-and-aggregate step of `monthly_billing`, on the frame after the
`month` column has been assigned: `groupby("month", as_index=False).agg(...)
.sort_values("month")`.  String keys are never null, so no row is dropped. -/
def mbAgg (w : List (Invoice × String)) : List MBRow :=
  let keys := sSort strLeB (dedupK (w.map Prod.snd))
  sSort (fun a b => strLeB a.month b.month)
    (keys.map fun k =>
      let g := (w.filter fun p => decide (p.2 = k)).map Prod.fst
      ⟨k, (g.map Invoice.total).sum, (g.map Invoice.amount_paid).sum,
        (g.map Invoice.amount_due).sum⟩)

/-- `monthly_billing` of `src/dashboard_builder.py` lines 16-23. -/
def monthly_billing (invoices : List Invoice) : List MBRow :=
  mbAgg (invoices.map fun i => (i, monthKey i.date))

/-- A row of the `yearly_billing` output. -/
structure YBRow where
  year : Nat
  total_billed : ℚ
  amount_collected : ℚ
  outstanding : ℚ
deriving DecidableEq, Repr

/-- Group-and-aggregate step of `yearly_billing`, on the frame after the
`year` column has been assigned.  The key is numeric and NaT dates give a NaN
key, which pandas `groupby` (default `dropna=True`) silently drops. -/
def ybAgg (w : List (Invoice × Option Nat)) : List YBRow :=
  let wk := w.filterMap fun p => p.2.map fun y => (p.1, y)
  let keys := sSort (fun a b => decide (a ≤ b)) (dedupK (wk.map Prod.snd))
  sSort (fun a b => decide (a.year ≤ b.year))
    (keys.map fun k =>
      let g := (wk.filter fun p => decide (p.2 = k)).map Prod.fst
      ⟨k, (g.map Invoice.total).sum, (g.map Invoice.amount_paid).sum,
        (g.map Invoice.amount_due).sum⟩)

/-- `yearly_billing` of `src/dashboard_builder.py` lines 26-33. -/
def yearly_billing (invoices : List Invoice) : List YBRow :=
  ybAgg (invoices.map fun i => (i, yearKey i.date))

/-- A Deal record.  `team` is `Option String`: `none` is a null team cell (the
record's team field was absent while other records supplied the column). -/
structure Deal where
  deal_name : String
  team : Option String
  deal_value : ℚ
  cost_to_deliver : ℚ
deriving DecidableEq, Repr

/-- A row of the `deal_profitability` output: the Deal columns plus the two
derived ones. -/
structure ProfitRow where
  deal_name : String
  team : Option String
  deal_value : ℚ
  cost_to_deliver : ℚ
  profit : ℚ
  profit_margin_pct : PVal
deriving DecidableEq, Repr

/-- The two column assignments of `deal_profitability` (lines 46-47):
`profit = deal_value - cost_to_deliver` and
`profit_margin_pct = (profit / deal_value).replace(...).fillna(0) * 100`. -/
def profitRows (deals : List Deal) : List ProfitRow :=
  (deals.map fun d => (d, d.deal_value - d.cost_to_deliver)).map fun p =>
    ⟨p.1.deal_name, p.1.team, p.1.deal_value, p.1.cost_to_deliver, p.2,
      ((fdiv p.2 p.1.deal_value).fillna0).mul100⟩

/-- `deal_profitability` of `src/dashboard_builder.py` lines 44-48. -/
def deal_profitability (deals : List Deal) : List ProfitRow :=
  sSort (fun a b => decide (b.profit ≤ a.profit)) (profitRows deals)

/-- A TimeEntry record, restricted to the columns the aggregations read. -/
structure TimeEntry where
  team : String
  hours : ℚ
  billable_amount : ℚ
deriving DecidableEq, Repr

/-- A row of the `time_recorded_per_team` output. -/
structure THRow where
  team : String
  hours : ℚ
  billable_amount : ℚ
deriving DecidableEq, Repr

/-- `time_recorded_per_team` of `src/dashboard_builder.py` lines 36-41:
`groupby("team")` (keys ascending) then `sort_values("hours",
ascending=False)`.  The sort is modelled by the deterministic `sSort`; the
source's default quicksort gives no guarantee on the relative order of
equal-hours rows, so only order facts independent of ties are proved. -/
def time_recorded_per_team (time_entries : List TimeEntry) : List THRow :=
  let keys := sSort strLeB (dedupK (time_entries.map TimeEntry.team))
  sSort (fun a b => decide (b.hours ≤ a.hours))
    (keys.map fun k =>
      let g := time_entries.filter fun e => decide (e.team = k)
      ⟨k, (g.map TimeEntry.hours).sum, (g.map TimeEntry.billable_amount).sum⟩)

/-- Per-team targets supplied by the presentation layer. -/
structure TeamTargets where
  revenue_target : ℚ
  collection_target : ℚ
  utilization_target_hours : ℚ
  profitability_target_pct : ℚ
deriving DecidableEq, Repr

/-- `targets.get(team, TeamTargets(0, 0, 0, 0))` on the targets dict. -/
def lookupTargets (targets : List (String × TeamTargets)) (team : String) : TeamTargets :=
  match targets.find? fun p => decide (p.1 = team) with
  | some p => p.2
  | none => ⟨0, 0, 0, 0⟩

/-- A row of the per-team deal aggregation (lines 58-62): `groupby("team")`
over the `deal_profitability` output plus the `profitability_pct` column. -/
structure DTRow where
  team : String
  revenue : ℚ
  profit : ℚ
  profitability_pct : PVal
deriving DecidableEq, Repr

/-- Lines 58-62: group the profitability frame by `team` (null teams dropped
by pandas), sum `deal_value` and `profit`, then assign
`profitability_pct = (profit / revenue).fillna(0) * 100`. -/
def by_team_profit (prof : List ProfitRow) : List DTRow :=
  (sSort strLeB (dedupK (prof.filterMap ProfitRow.team))).map fun k =>
    let g := prof.filter fun r => decide (r.team = some k)
    let rev := (g.map ProfitRow.deal_value).sum
    let pr := (g.map ProfitRow.profit).sum
    ⟨k, rev, pr, ((fdiv pr rev).fillna0).mul100⟩

/-- A row of the merged frame (line 66): outer merge of `by_team_profit` and
`time_recorded_per_team` on `team`, followed by `.fillna(0)`. -/
structure MRow where
  team : String
  revenue : ℚ
  profit : ℚ
  profitability_pct : PVal
  hours : ℚ
  billable_amount : ℚ
deriving DecidableEq, Repr

/-- One row of the outer merge for team key `k`: the side missing the key
contributes `.fillna(0)` cells (including the `profitability_pct` cell of a
time-only team). -/
def mergeRow (btp : List DTRow) (tt : List THRow) (k : String) : MRow :=
  match btp.find? (fun r => decide (r.team = k)),
      tt.find? (fun r => decide (r.team = k)) with
  | some d, some t => ⟨k, d.revenue, d.profit, d.profitability_pct, t.hours, t.billable_amount⟩
  | some d, none => ⟨k, d.revenue, d.profit, d.profitability_pct, 0, 0⟩
  | none, some t => ⟨k, 0, 0, .num 0, t.hours, t.billable_amount⟩
  | none, none => ⟨k, 0, 0, .num 0, 0, 0⟩

/-- Line 66: the outer merge unions the team keys (sorted lexicographically,
as pandas sorts outer-join keys) and fills the cells missing from one side
with 0. -/
def mergedRows (btp : List DTRow) (tt : List THRow) : List MRow :=
  (sSort strLeB (dedupK (btp.map DTRow.team ++ tt.map THRow.team))).map (mergeRow btp tt)

/-- A row of the `team_scorecard` output. -/
structure ScoreRow where
  team : String
  revenue : ℚ
  profit : ℚ
  profitability_pct : PVal
  hours : ℚ
  collected_estimate : ℚ
  revenue_vs_target_pct : ℚ
  collection_vs_target_pct : ℚ
  utilization_vs_target_pct : ℚ
  profitability_vs_target_pct : PVal
deriving DecidableEq, Repr

/-- The loop body of lines 70-98: build one scorecard row from a merged row.
`total_collected` is `Σ invoices.amount_paid` and `sumRev` is
`merged["revenue"].sum()` (recomputed but constant inside the loop). -/
def scoreRow (total_collected sumRev : ℚ) (targets : List (String × TeamTargets))
    (m : MRow) : ScoreRow :=
  let t := lookupTargets targets m.team
  let collection_share : ℚ := if sumRev = 0 then 0 else m.revenue / sumRev
  let collected_team := total_collected * collection_share
  { team := m.team
    revenue := m.revenue
    profit := m.profit
    profitability_pct := m.profitability_pct
    hours := m.hours
    collected_estimate := collected_team
    revenue_vs_target_pct :=
      if t.revenue_target = 0 then 0 else m.revenue / t.revenue_target * 100
    collection_vs_target_pct :=
      if t.collection_target = 0 then 0 else collected_team / t.collection_target * 100
    utilization_vs_target_pct :=
      if t.utilization_target_hours = 0 then 0 else m.hours / t.utilization_target_hours * 100
    profitability_vs_target_pct :=
      if t.profitability_target_pct = 0 then PVal.num 0
      else (m.profitability_pct.divQ t.profitability_target_pct).mul100 }

/-- Lines 57-99 after the profitability frame has been computed: aggregate by
team, merge with the time aggregation, build the rows and sort descending by
revenue. -/
def scoreFrom (prof : List ProfitRow) (time_entries : List TimeEntry)
    (invoices : List Invoice) (targets : List (String × TeamTargets)) : List ScoreRow :=
  let merged := mergedRows (by_team_profit prof) (time_recorded_per_team time_entries)
  let total_collected := (invoices.map Invoice.amount_paid).sum
  let sumRev := (merged.map MRow.revenue).sum
  sSort (fun a b => decide (b.revenue ≤ a.revenue))
    (merged.map (scoreRow total_collected sumRev targets))

/-- `team_scorecard` of `src/dashboard_builder.py` lines 51-99. -/
def team_scorecard (deals : List Deal) (time_entries : List TimeEntry)
    (invoices : List Invoice) (targets : List (String × TeamTargets)) : List ScoreRow :=
  scoreFrom (deal_profitability deals) time_entries invoices targets


/-- A Python heap object: a DataFrame in one of the shapes the code creates,
or the targets dict. -/
inductive PyObj where
  | invs (v : List Invoice)
  | invsMonth (v : List (Invoice × String))
  | invsYear (v : List (Invoice × Option Nat))
  | deals (v : List Deal)
  | dealsProfit1 (v : List (Deal × ℚ))
  | dealsProfit (v : List ProfitRow)
  | times (v : List TimeEntry)
  | tmap (v : List (String × TeamTargets))
deriving DecidableEq, Repr

/-- The Python heap: objects addressed by position; `df.copy()` appends a
fresh object, a column assignment overwrites in place. -/
abbrev Store := List PyObj

/-- `monthly_billing` against the heap: read the argument, `df =
invoices.copy()` (allocate), `df["month"] = ...` (write the copy in place),
then aggregate from the copy.  The input frame is never written. -/
def monthlyBillingS (σ : Store) (i : Nat) : Option (Store × List MBRow) :=
  match σ[i]? with
  | some (.invs v) =>
    let d := σ.length
    let σ₂ := (σ ++ [PyObj.invs v]).set d
      (PyObj.invsMonth (v.map fun x => (x, monthKey x.date)))
    match σ₂[d]? with
    | some (.invsMonth w) => some (σ₂, mbAgg w)
    | _ => none
  | _ => none

/-- `yearly_billing` against the heap, same shape as `monthlyBillingS`. -/
def yearlyBillingS (σ : Store) (i : Nat) : Option (Store × List YBRow) :=
  match σ[i]? with
  | some (.invs v) =>
    let d := σ.length
    let σ₂ := (σ ++ [PyObj.invs v]).set d
      (PyObj.invsYear (v.map fun x => (x, yearKey x.date)))
    match σ₂[d]? with
    | some (.invsYear w) => some (σ₂, ybAgg w)
    | _ => none
  | _ => none

/-- `time_recorded_per_team` against the heap: it only reads (groupby and
sort build fresh frames), so the store is untouched. -/
def timeRecordedS (σ : Store) (i : Nat) : Option (Store × List THRow) :=
  match σ[i]? with
  | some (.times v) => some (σ, time_recorded_per_team v)
  | _ => none

/-- `deal_profitability` against the heap: `df = deals.copy()`, then the two
in-place column assignments of lines 46-47, then sort from the copy. -/
def deal_profitabilityS (σ : Store) (i : Nat) : Option (Store × List ProfitRow) :=
  match σ[i]? with
  | some (.deals v) =>
    let d := σ.length
    let σ₂ := (σ ++ [PyObj.deals v]).set d
      (PyObj.dealsProfit1 (v.map fun x => (x, x.deal_value - x.cost_to_deliver)))
    match σ₂[d]? with
    | some (.dealsProfit1 w) =>
      let σ₃ := σ₂.set d (PyObj.dealsProfit (w.map fun p =>
        ⟨p.1.deal_name, p.1.team, p.1.deal_value, p.1.cost_to_deliver, p.2,
          ((fdiv p.2 p.1.deal_value).fillna0).mul100⟩))
      match σ₃[d]? with
      | some (.dealsProfit u) =>
        some (σ₃, sSort (fun a b => decide (b.profit ≤ a.profit)) u)
      | _ => none
    | _ => none
  | _ => none

/-- `team_scorecard` against the heap: it calls `deal_profitability` (which
allocates the work copy) and otherwise only reads the three other inputs. -/
def team_scorecardS (σ : Store) (dI tI iI gI : Nat) : Option (Store × List ScoreRow) :=
  match deal_profitabilityS σ dI with
  | some (σ₁, prof) =>
    match σ₁[tI]?, σ₁[iI]?, σ₁[gI]? with
    | some (.times te), some (.invs inv), some (.tmap tg) =>
      some (σ₁, scoreFrom prof te inv tg)
    | _, _, _ => none
  | none => none


theorem mem_dedupK [DecidableEq α] {a : α} {l : List α} : a ∈ dedupK l ↔ a ∈ l := by
  induction l with
  | nil => simp [dedupK]
  | cons b bs ih =>
    by_cases hb : b ∈ dedupK bs
    · simp only [dedupK, if_pos hb, List.mem_cons, ih]
      constructor
      · exact Or.inr
      · rintro (rfl | h)
        · exact ih.mp hb
        · exact h
    · simp [dedupK, if_neg hb, ih]

theorem nodup_dedupK [DecidableEq α] (l : List α) : (dedupK l).Nodup := by
  induction l with
  | nil => simp [dedupK]
  | cons b bs ih =>
    by_cases hb : b ∈ dedupK bs
    · simpa [dedupK, if_pos hb] using ih
    · simp only [dedupK, if_neg hb]
      exact List.Nodup.cons hb ih


theorem sIns_perm (le : α → α → Bool) (x : α) (l : List α) :
    (sIns le x l).Perm (x :: l) := by
  induction l with
  | nil => exact List.Perm.refl _
  | cons y ys ih =>
    by_cases h : (le y x && !le x y) = true
    · rw [sIns, if_pos h]
      exact (ih.cons y).trans (List.Perm.swap x y ys)
    · rw [sIns, if_neg h]

theorem sSort_perm (le : α → α → Bool) (l : List α) : (sSort le l).Perm l := by
  induction l with
  | nil => exact List.Perm.refl _
  | cons x xs ih => exact (sIns_perm le x _).trans (ih.cons x)

theorem mem_sSort {le : α → α → Bool} {x : α} {l : List α} :
    x ∈ sSort le l ↔ x ∈ l :=
  (sSort_perm le l).mem_iff

theorem pairwise_sIns (le : α → α → Bool)
    (htot : ∀ a b, le a b = true ∨ le b a = true)
    (htrans : ∀ a b c, le a b = true → le b c = true → le a c = true)
    {x : α} {l : List α} (h : l.Pairwise fun a b => le a b = true) :
    (sIns le x l).Pairwise fun a b => le a b = true := by
  induction l with
  | nil => simp [sIns]
  | cons y ys ih =>
    obtain ⟨hy, hys⟩ := List.pairwise_cons.mp h
    by_cases hc : (le y x && !le x y) = true
    · rw [sIns, if_pos hc]
      refine List.pairwise_cons.mpr ⟨?_, ih hys⟩
      intro z hz
      rcases List.mem_cons.mp ((sIns_perm le x ys).mem_iff.mp hz) with rfl | hzy
      · rw [Bool.and_eq_true] at hc
        exact hc.1
      · exact hy z hzy
    · rw [sIns, if_neg hc]
      have hxy : le x y = true := by
        rcases htot x y with h1 | h1
        · exact h1
        · by_cases h2 : le x y = true
          · exact h2
          · refine absurd ?_ hc
            rw [Bool.and_eq_true]
            exact ⟨h1, by simp [h2]⟩
      refine List.pairwise_cons.mpr ⟨?_, h⟩
      intro z hz
      rcases List.mem_cons.mp hz with rfl | hzy
      · exact hxy
      · exact htrans x y z hxy (hy z hzy)

theorem pairwise_sSort (le : α → α → Bool)
    (htot : ∀ a b, le a b = true ∨ le b a = true)
    (htrans : ∀ a b c, le a b = true → le b c = true → le a c = true)
    (l : List α) : (sSort le l).Pairwise fun a b => le a b = true := by
  induction l with
  | nil => simp [sSort]
  | cons x xs ih => exact pairwise_sIns le htot htrans ih

theorem charsLtB_lex (l m : List Char) :
    charsLtB l m = true ↔ List.Lex (fun a b : Char => a < b) l m := by
  induction l generalizing m with
  | nil =>
    cases m with
    | nil =>
      constructor
      · intro h; simp [charsLtB] at h
      · intro h; cases h
    | cons b bs =>
      simp only [charsLtB]
      exact iff_of_true trivial List.Lex.nil
  | cons a as ih =>
    cases m with
    | nil =>
      constructor
      · intro h; simp [charsLtB] at h
      · intro h; cases h
    | cons b bs =>
      rw [charsLtB]
      by_cases h1 : a < b
      · simp only [if_pos h1]
        exact iff_of_true trivial (List.Lex.rel h1)
      · by_cases h2 : b < a
        · simp only [if_neg h1, if_pos h2]
          constructor
          · intro h; exact absurd h (by simp)
          · intro h
            cases h with
            | rel h3 => exact absurd h3 h1
            | cons h5 => exact absurd h2 (lt_irrefl a)
        · have hab : a = b := le_antisymm (not_lt.mp h2) (not_lt.mp h1)
          subst hab
          simp only [if_neg h1, if_neg h2]
          rw [ih bs]
          constructor
          · intro h; exact List.Lex.cons h
          · intro h
            cases h with
            | rel h3 => exact absurd h3 h1
            | cons h5 => exact h5

theorem strLtB_iff {s t : String} : strLtB s t = true ↔ s < t := by
  rw [String.lt_iff_toList_lt]
  exact charsLtB_lex s.data t.data

theorem strLeB_iff {s t : String} : strLeB s t = true ↔ s ≤ t := by
  constructor
  · intro h
    refine not_lt.mp fun hlt => ?_
    rw [strLeB, strLtB_iff.mpr hlt] at h
    simp at h
  · intro h
    have hn : strLtB t s = false := by
      cases hb : strLtB t s
      · rfl
      · exact absurd (strLtB_iff.mp hb) (not_lt.mpr h)
    simp [strLeB, hn]

theorem strLeB_total (a b : String) : strLeB a b = true ∨ strLeB b a = true := by
  rcases le_total a b with h | h
  · exact Or.inl (strLeB_iff.mpr h)
  · exact Or.inr (strLeB_iff.mpr h)

theorem strLeB_trans (a b c : String) (h1 : strLeB a b = true)
    (h2 : strLeB b c = true) : strLeB a c = true :=
  strLeB_iff.mpr (le_trans (strLeB_iff.mp h1) (strLeB_iff.mp h2))

theorem digitChar_lt_upperN (n : Nat) (h : n < 10) : Nat.digitChar n < 'N' := by
  interval_cases n <;> decide

theorem monthKey_some_lt_nat (d : Date) : monthKey (some d) < "NaT" := by
  show (⟨yearChars d.year ++ '-' :: monthChars d.month⟩ : String) < "NaT"
  rw [String.lt_iff_toList_lt]
  show List.Lex (fun a b : Char => a < b)
    (yearChars d.year ++ '-' :: monthChars d.month) ['N', 'a', 'T']
  rw [yearChars, List.cons_append]
  exact List.Lex.rel (digitChar_lt_upperN _ (Nat.mod_lt _ (by norm_num)))

theorem monthKey_eq_nat_iff (x : Option Date) : monthKey x = "NaT" ↔ x = none := by
  cases x with
  | none => simp [monthKey]
  | some d =>
    simp only [monthKey]
    exact ⟨fun h => absurd h (ne_of_lt (monthKey_some_lt_nat d)), fun h => by cases h⟩


/-- Claim C1 (status: code bug in `yearly_billing`).  The invoice with an
unparseable date is bucketed by `monthly_billing` under the sentinel month
"NaT", so the monthly sums reconcile with `Σ invoices.total = 100`; but
`yearly_billing` derives a NaN year for it and pandas `groupby` silently drops
the row, so the yearly output is empty and its `total_billed` sum is 0, not
100 — the conservation property the claim states fails for `yearly_billing`. -/
theorem yearly_billing_drops_unparseable_dates :
    yearly_billing [⟨none, 100, 30, 70⟩] = [] ∧
    (([(⟨none, 100, 30, 70⟩ : Invoice)].map Invoice.total).sum = 100) ∧
    monthly_billing [⟨none, 100, 30, 70⟩] = [⟨"NaT", 100, 30, 70⟩] := by
  refine ⟨rfl, by norm_num, ?_⟩
  norm_num [team_scorecard, scoreFrom, deal_profitability, profitRows,
    by_team_profit, mergedRows, mergeRow, time_recorded_per_team, scoreRow,
    lookupTargets, sSort, sIns, dedupK, mbAgg, ybAgg, monthly_billing,
    yearly_billing, monthKey, yearKey, fdiv, PVal.fillna0, PVal.mul100, PVal.divQ]

/-- Claim C2 (status: code bug).  A deal with `deal_value = 0` and
`cost_to_deliver = 400` has `profit = -400`; numpy evaluates `-400 / 0` to
`-inf`, and the `replace`/`fillna` guard only turns `nan` (from `0 / 0`) into
0, so `profit_margin_pct` is `-inf` — not the 0 the claim and spec require. -/
theorem deal_profitability_neg_inf_margin :
    deal_profitability [⟨"D1", some "A", 0, 400⟩] =
      [⟨"D1", some "A", 0, 400, -400, PVal.ninf⟩] := by
  norm_num [team_scorecard, scoreFrom, deal_profitability, profitRows,
    by_team_profit, mergedRows, mergeRow, time_recorded_per_team, scoreRow,
    lookupTargets, sSort, sIns, dedupK, mbAgg, ybAgg, monthly_billing,
    yearly_billing, monthKey, yearKey, fdiv, PVal.fillna0, PVal.mul100, PVal.divQ]

/-- Claim C6 (status: code bug).  A team whose only deal has `deal_value = 0`
and `cost_to_deliver = 100` has summed revenue 0 and summed profit -100; line
62 computes `profit / revenue` as `-100 / 0 = -inf`, which `.fillna(0)` does
not touch (it only replaces the `nan` of `0 / 0`), so the scorecard's
`profitability_pct` is `-inf` — not the 0 the claim and spec require. -/
theorem team_scorecard_neg_inf_profitability :
    team_scorecard [⟨"D1", some "A", 0, 100⟩] [] [] [] =
      [⟨"A", 0, -100, PVal.ninf, 0, 0, 0, 0, 0, PVal.num 0⟩] := by
  norm_num [team_scorecard, scoreFrom, deal_profitability, profitRows,
    by_team_profit, mergedRows, mergeRow, time_recorded_per_team, scoreRow,
    lookupTargets, sSort, sIns, dedupK, mbAgg, ybAgg, monthly_billing,
    yearly_billing, monthKey, yearKey, fdiv, PVal.fillna0, PVal.mul100, PVal.divQ]

/-- Claim C7 (status: code bug).  A deal record whose `team` cell is null
(its team field was absent while another record supplied the column, so the
loader's column-level `"Unknown"` default at `src/connectors.py` lines 78-79
does not fire) is silently dropped by the `groupby("team")` of
`team_scorecard`: the output has a single row for team "A" with revenue 100,
no "Unknown" row, and the dropped deal's value 50 appears nowhere. -/
theorem team_scorecard_drops_null_team_deal :
    team_scorecard [⟨"D1", some "A", 100, 0⟩, ⟨"D2", none, 50, 0⟩] [] [] [] =
      [⟨"A", 100, 100, PVal.num 100, 0, 0, 0, 0, 0, PVal.num 0⟩] ∧
    "Unknown" ∉ (team_scorecard [⟨"D1", some "A", 100, 0⟩, ⟨"D2", none, 50, 0⟩]
      [] [] []).map ScoreRow.team ∧
    ((team_scorecard [⟨"D1", some "A", 100, 0⟩, ⟨"D2", none, 50, 0⟩]
      [] [] []).map ScoreRow.revenue).sum = 100 := by
  have h : team_scorecard [⟨"D1", some "A", 100, 0⟩, ⟨"D2", none, 50, 0⟩] [] [] [] =
      [⟨"A", 100, 100, PVal.num 100, 0, 0, 0, 0, 0, PVal.num 0⟩] := by
    simp [team_scorecard, scoreFrom, deal_profitability, profitRows,
      by_team_profit, mergedRows, mergeRow, time_recorded_per_team, scoreRow,
      lookupTargets, sSort, sIns, dedupK, fdiv, PVal.fillna0, PVal.mul100, PVal.divQ]
    all_goals norm_num
    all_goals simp [scoreRow, lookupTargets, sSort, sIns, dedupK, fdiv,
      PVal.fillna0, PVal.mul100, PVal.divQ, mergedRows, mergeRow, by_team_profit,
      time_recorded_per_team]
  refine ⟨h, ?_, ?_⟩
  · rw [h]; simp
  · rw [h]; norm_num



/-- Claim C8 (status: code bug in the tie-break).  The half of the claim the
program does guarantee: the rows of `time_recorded_per_team` are in
descending order of summed hours.  The claimed team-ascending order of
equal-hours rows is not provided by the source: `sort_values` defaults to
numpy's unstable quicksort, so the relative order of tied rows is an
unspecified artifact of introsort, while the spec mandates a stable,
documented tie-break (it notes the source leaves ties undefined).  The
embedding's `sSort` is a determinization of that unspecified order, so no
tie-break theorem is claimed from it. -/
theorem time_recorded_per_team_hours_descending (time_entries : List TimeEntry) :
    (time_recorded_per_team time_entries).Pairwise fun a b => b.hours ≤ a.hours := by
  simp only [time_recorded_per_team]
  refine (pairwise_sSort (fun a b : THRow => decide (b.hours ≤ a.hours))
    (fun a b => ?_) (fun a b c h1 h2 => ?_) _).imp fun hab => of_decide_eq_true hab
  · rcases le_total b.hours a.hours with h | h
    · exact Or.inl (decide_eq_true h)
    · exact Or.inr (decide_eq_true h)
  · exact decide_eq_true (le_trans (of_decide_eq_true h2) (of_decide_eq_true h1))

theorem monthKey_le_nat (x : Option Date) : monthKey x ≤ "NaT" := by
  cases x with
  | none => exact le_refl _
  | some d => exact le_of_lt (monthKey_some_lt_nat d)

theorem mbAgg_mem_of_key {w : List (Invoice × String)} {k : String}
    (hk : k ∈ w.map Prod.snd) :
    (⟨k, (((w.filter fun p => decide (p.2 = k)).map Prod.fst).map Invoice.total).sum,
      (((w.filter fun p => decide (p.2 = k)).map Prod.fst).map Invoice.amount_paid).sum,
      (((w.filter fun p => decide (p.2 = k)).map Prod.fst).map Invoice.amount_due).sum⟩ :
      MBRow) ∈ mbAgg w := by
  have hmem : k ∈ sSort strLeB (dedupK (w.map Prod.snd)) :=
    mem_sSort.mpr (mem_dedupK.mpr hk)
  simp only [mbAgg]
  exact mem_sSort.mpr (List.mem_map.mpr ⟨k, hmem, rfl⟩)

theorem monthly_nat_group (invs : List Invoice) :
    ((invs.map fun i => (i, monthKey i.date)).filter fun p => decide (p.2 = "NaT")).map Prod.fst
      = invs.filter fun i => decide (i.date = none) := by
  rw [List.filter_map, List.map_map]
  rw [show Prod.fst ∘ (fun i : Invoice => (i, monthKey i.date)) = id from rfl, List.map_id]
  apply List.filter_congr
  intro x _
  exact decide_eq_decide.mpr (monthKey_eq_nat_iff x.date)

theorem mbAgg_months_eq_keys (w : List (Invoice × String)) :
    (mbAgg w).Perm ((sSort strLeB (dedupK (w.map Prod.snd))).map fun k =>
      (⟨k, (((w.filter fun p => decide (p.2 = k)).map Prod.fst).map Invoice.total).sum,
        (((w.filter fun p => decide (p.2 = k)).map Prod.fst).map Invoice.amount_paid).sum,
        (((w.filter fun p => decide (p.2 = k)).map Prod.fst).map Invoice.amount_due).sum⟩ :
        MBRow)) := by
  simp only [mbAgg]
  exact sSort_perm _ _

theorem mbAgg_month_nodup (w : List (Invoice × String)) :
    ((mbAgg w).map MBRow.month).Nodup := by
  have hperm := (mbAgg_months_eq_keys w).map MBRow.month
  refine hperm.symm.nodup ?_
  rw [List.map_map]
  have : (MBRow.month ∘ fun k =>
      (⟨k, (((w.filter fun p => decide (p.2 = k)).map Prod.fst).map Invoice.total).sum,
        (((w.filter fun p => decide (p.2 = k)).map Prod.fst).map Invoice.amount_paid).sum,
        (((w.filter fun p => decide (p.2 = k)).map Prod.fst).map Invoice.amount_due).sum⟩ :
        MBRow)) = id := rfl
  rw [this, List.map_id]
  exact (sSort_perm _ _).symm.nodup (nodup_dedupK _)

theorem mbAgg_sorted (w : List (Invoice × String)) :
    (mbAgg w).Pairwise fun a b => a.month < b.month := by
  have hle : (mbAgg w).Pairwise fun a b => strLeB a.month b.month = true := by
    simp only [mbAgg]
    exact pairwise_sSort (fun a b : MBRow => strLeB a.month b.month)
      (fun a b => strLeB_total a.month b.month)
      (fun a b c h1 h2 => strLeB_trans _ _ _ h1 h2) _
  have hne : (mbAgg w).Pairwise fun a b => a.month ≠ b.month :=
    List.pairwise_map.mp (mbAgg_month_nodup w)
  exact (hle.and hne).imp fun hab => lt_of_le_of_ne (strLeB_iff.mp hab.1) hab.2

theorem getLastD_month_max : ∀ (l : List MBRow) (dflt : MBRow),
    l.Pairwise (fun a b => a.month < b.month) →
    (∃ r ∈ l, r.month = "NaT") →
    (∀ x ∈ l, x.month ≤ "NaT") →
    (l.getLastD dflt).month = "NaT"
  | [], _, _, hex, _ => by
    rcases hex with ⟨r, hr, _⟩
    cases hr
  | [a], _, _, hex, _ => by
    rcases hex with ⟨r, hr, hrN⟩
    rcases List.mem_singleton.mp hr with rfl
    simpa [List.getLastD] using hrN
  | a :: b :: t, d, hpw, hex, hmax => by
    rw [List.getLastD_cons]
    obtain ⟨ha, hpl⟩ := List.pairwise_cons.mp hpw
    rcases hex with ⟨r, hr, hrN⟩
    rcases List.mem_cons.mp hr with heq | hr2
    · rw [heq] at hrN
      have hb := ha b (List.mem_cons_self b t)
      have hble := hmax b (List.mem_cons_of_mem a (List.mem_cons_self b t))
      rw [hrN] at hb
      exact absurd (lt_of_lt_of_le hb hble) (lt_irrefl _)
    · exact getLastD_month_max (b :: t) a hpl ⟨r, hr2, hrN⟩
        fun x hx => hmax x (List.mem_cons_of_mem a hx)

theorem monthly_billing_months_le_nat (invs : List Invoice) :
    ∀ x ∈ monthly_billing invs, x.month ≤ "NaT" := by
  intro x hx
  have := (mbAgg_months_eq_keys (invs.map fun i => (i, monthKey i.date))).mem_iff.mp hx
  rcases List.mem_map.mp this with ⟨k, hk, rfl⟩
  have hk2 : k ∈ (invs.map fun i => (i, monthKey i.date)).map Prod.snd :=
    mem_dedupK.mp (mem_sSort.mp hk)
  rw [List.map_map] at hk2
  rcases List.mem_map.mp hk2 with ⟨i, _, rfl⟩
  exact monthKey_le_nat i.date

/-- Claim C10 (status: confirmed).  Invoices whose date fails to parse get the
month key equal to the literal string "NaT" (`to_period("M").astype(str)` on
`NaT`), so they are grouped — not dropped and with no exception, the embedded
function being total — into a sentinel row whose `total_billed` sums exactly
the unparseable-date invoices; "NaT" starts with 'N', which is greater than
the digit starting every "YYYY-MM" key, so in the ascending
`sort_values("month")` output the sentinel row comes last. -/
theorem monthly_billing_nat_bucket (invs : List Invoice)
    (h : ∃ i ∈ invs, i.date = none) :
    (∃ r ∈ monthly_billing invs, r.month = "NaT" ∧
        r.total_billed = ((invs.filter fun i => decide (i.date = none)).map Invoice.total).sum) ∧
    (monthly_billing invs).Pairwise (fun a b => a.month < b.month) ∧
    ((monthly_billing invs).getLastD ⟨"", 0, 0, 0⟩).month = "NaT" := by
  have hknat : "NaT" ∈ (invs.map fun i => (i, monthKey i.date)).map Prod.snd := by
    rw [List.map_map]
    rcases h with ⟨i0, hi0, hd⟩
    refine List.mem_map.mpr ⟨i0, hi0, ?_⟩
    simp only [Function.comp]
    rw [hd]
    rfl
  have hex : ∃ r ∈ monthly_billing invs, r.month = "NaT" ∧
      r.total_billed = ((invs.filter fun i => decide (i.date = none)).map Invoice.total).sum := by
    refine ⟨_, mbAgg_mem_of_key hknat, rfl, ?_⟩
    rw [monthly_nat_group invs]
  have hsorted : (monthly_billing invs).Pairwise fun a b => a.month < b.month :=
    mbAgg_sorted _
  refine ⟨hex, hsorted, ?_⟩
  rcases hex with ⟨r, hr, hrN, _⟩
  exact getLastD_month_max _ _ hsorted ⟨r, hr, hrN⟩
    (monthly_billing_months_le_nat invs)

/-- Concrete instance of `monthly_billing_nat_bucket`: an invoice table with
one unparseable and one parseable date satisfies the hypothesis, and the
conclusions follow by the theorem. -/
theorem monthly_billing_nat_bucket_witness :
    (∃ i ∈ ([⟨none, 100, 30, 70⟩, ⟨some ⟨2024, 1⟩, 50, 50, 0⟩] : List Invoice),
      i.date = none) ∧
    ((∃ r ∈ monthly_billing [⟨none, 100, 30, 70⟩, ⟨some ⟨2024, 1⟩, 50, 50, 0⟩],
        r.month = "NaT" ∧
        r.total_billed = ((([⟨none, 100, 30, 70⟩, ⟨some ⟨2024, 1⟩, 50, 50, 0⟩] :
          List Invoice).filter fun i => decide (i.date = none)).map Invoice.total).sum) ∧
      (monthly_billing [⟨none, 100, 30, 70⟩, ⟨some ⟨2024, 1⟩, 50, 50, 0⟩]).Pairwise
        (fun a b => a.month < b.month) ∧
      ((monthly_billing [⟨none, 100, 30, 70⟩,
        ⟨some ⟨2024, 1⟩, 50, 50, 0⟩]).getLastD ⟨"", 0, 0, 0⟩).month = "NaT") :=
  ⟨⟨⟨none, 100, 30, 70⟩, by decide⟩,
    monthly_billing_nat_bucket _ ⟨⟨none, 100, 30, 70⟩, by decide⟩⟩



theorem mergeRow_team (btp : List DTRow) (tt : List THRow) (k : String) :
    (mergeRow btp tt k).team = k := by
  cases h1 : btp.find? (fun r => decide (r.team = k)) <;>
    cases h2 : tt.find? (fun r => decide (r.team = k)) <;>
      simp [mergeRow, h1, h2]

theorem mergedRows_map_team (btp : List DTRow) (tt : List THRow) :
    (mergedRows btp tt).map MRow.team =
      sSort strLeB (dedupK (btp.map DTRow.team ++ tt.map THRow.team)) := by
  simp only [mergedRows]
  rw [List.map_map]
  calc (sSort strLeB (dedupK (btp.map DTRow.team ++ tt.map THRow.team))).map
        (MRow.team ∘ mergeRow btp tt)
      = (sSort strLeB (dedupK (btp.map DTRow.team ++ tt.map THRow.team))).map id :=
        List.map_congr_left fun k _ => mergeRow_team btp tt k
    _ = _ := List.map_id _

theorem profitRows_filterMap_team (deals : List Deal) :
    (profitRows deals).filterMap ProfitRow.team = deals.filterMap Deal.team := by
  simp only [profitRows]
  rw [List.filterMap_map, List.filterMap_map]
  rfl

theorem mem_deal_prof_team {deals : List Deal} {t : String} :
    t ∈ (deal_profitability deals).filterMap ProfitRow.team ↔
      t ∈ deals.filterMap Deal.team := by
  rw [← profitRows_filterMap_team]
  exact ((sSort_perm _ _).filterMap ProfitRow.team).mem_iff

theorem by_team_profit_map_team (prof : List ProfitRow) :
    (by_team_profit prof).map DTRow.team =
      sSort strLeB (dedupK (prof.filterMap ProfitRow.team)) := by
  simp only [by_team_profit]
  rw [List.map_map]
  calc (sSort strLeB (dedupK (prof.filterMap ProfitRow.team))).map _
      = (sSort strLeB (dedupK (prof.filterMap ProfitRow.team))).map id :=
        List.map_congr_left fun k _ => rfl
    _ = _ := List.map_id _

theorem mem_time_team {tes : List TimeEntry} {t : String} :
    t ∈ (time_recorded_per_team tes).map THRow.team ↔
      t ∈ tes.map TimeEntry.team := by
  simp only [time_recorded_per_team]
  refine ((sSort_perm _ _).map THRow.team).mem_iff.trans ?_
  rw [List.map_map]
  constructor
  · intro ht
    rcases List.mem_map.mp ht with ⟨k, hk, heq⟩
    have hk2 : k ∈ tes.map TimeEntry.team := mem_dedupK.mp (mem_sSort.mp hk)
    rw [show k = t from heq] at hk2
    exact hk2
  · intro ht
    exact List.mem_map.mpr ⟨t, mem_sSort.mpr (mem_dedupK.mpr ht), rfl⟩

theorem team_scorecard_map_team_perm (deals : List Deal) (tes : List TimeEntry)
    (invs : List Invoice) (tg : List (String × TeamTargets)) :
    ((team_scorecard deals tes invs tg).map ScoreRow.team).Perm
      ((mergedRows (by_team_profit (deal_profitability deals))
        (time_recorded_per_team tes)).map MRow.team) := by
  simp only [team_scorecard, scoreFrom]
  refine ((sSort_perm _ _).map ScoreRow.team).trans ?_
  rw [List.map_map]
  exact List.Perm.of_eq (List.map_congr_left fun m _ => rfl)

/-- Claim C5 (status: confirmed).  The teams of the scorecard output are
exactly the union of the (non-null) team values of the deal table and the
team values of the time-entry table, each appearing in exactly one row: the
groupby keys are deduplicated, and the outer merge unions the two key sets. -/
theorem team_scorecard_team_union (deals : List Deal) (tes : List TimeEntry)
    (invs : List Invoice) (tg : List (String × TeamTargets)) :
    ((team_scorecard deals tes invs tg).map ScoreRow.team).Nodup ∧
    ∀ t : String, t ∈ (team_scorecard deals tes invs tg).map ScoreRow.team ↔
      (t ∈ deals.filterMap Deal.team ∨ t ∈ tes.map TimeEntry.team) := by
  have hperm := team_scorecard_map_team_perm deals tes invs tg
  have hmr := mergedRows_map_team (by_team_profit (deal_profitability deals))
    (time_recorded_per_team tes)
  constructor
  · refine hperm.symm.nodup ?_
    rw [hmr]
    exact (sSort_perm _ _).symm.nodup (nodup_dedupK _)
  · intro t
    rw [hperm.mem_iff, hmr, mem_sSort, mem_dedupK, List.mem_append]
    refine or_congr ?_ ?_
    · rw [by_team_profit_map_team, mem_sSort, mem_dedupK]
      exact mem_deal_prof_team
    · exact mem_time_team



theorem team_scorecard_row_spec {deals : List Deal} {tes : List TimeEntry}
    {invs : List Invoice} {tg : List (String × TeamTargets)} {r : ScoreRow}
    (hr : r ∈ team_scorecard deals tes invs tg) :
    ∃ m ∈ mergedRows (by_team_profit (deal_profitability deals))
        (time_recorded_per_team tes),
      r = scoreRow ((invs.map Invoice.amount_paid).sum)
        (((mergedRows (by_team_profit (deal_profitability deals))
          (time_recorded_per_team tes)).map MRow.revenue).sum) tg m := by
  simp only [team_scorecard, scoreFrom] at hr
  rcases List.mem_map.mp (mem_sSort.mp hr) with ⟨m, hm, heq⟩
  exact ⟨m, hm, heq.symm⟩

/-- Claim C4 (status: confirmed).  Every scorecard row satisfies the
zero-target policy against its own team's looked-up targets: each vs-target
field is 0 when the corresponding target is 0 and `actual / target * 100`
otherwise; a team absent from the targets dict gets the all-zero default
object, so all four of its ratio fields are 0. -/
theorem team_scorecard_zero_target (deals : List Deal) (tes : List TimeEntry)
    (invs : List Invoice) (tg : List (String × TeamTargets)) (r : ScoreRow)
    (hr : r ∈ team_scorecard deals tes invs tg) :
    (r.revenue_vs_target_pct = if (lookupTargets tg r.team).revenue_target = 0 then 0
      else r.revenue / (lookupTargets tg r.team).revenue_target * 100) ∧
    (r.collection_vs_target_pct = if (lookupTargets tg r.team).collection_target = 0 then 0
      else r.collected_estimate / (lookupTargets tg r.team).collection_target * 100) ∧
    (r.utilization_vs_target_pct =
      if (lookupTargets tg r.team).utilization_target_hours = 0 then 0
      else r.hours / (lookupTargets tg r.team).utilization_target_hours * 100) ∧
    (r.profitability_vs_target_pct =
      if (lookupTargets tg r.team).profitability_target_pct = 0 then PVal.num 0
      else (r.profitability_pct.divQ
        (lookupTargets tg r.team).profitability_target_pct).mul100) ∧
    ((tg.find? fun p => decide (p.1 = r.team)) = none →
      r.revenue_vs_target_pct = 0 ∧ r.collection_vs_target_pct = 0 ∧
      r.utilization_vs_target_pct = 0 ∧ r.profitability_vs_target_pct = PVal.num 0) := by
  obtain ⟨m, hm, rfl⟩ := team_scorecard_row_spec hr
  refine ⟨rfl, rfl, rfl, rfl, fun hnone => ?_⟩
  have hnone2 : tg.find? (fun p => decide (p.1 = m.team)) = none := hnone
  have ht : lookupTargets tg m.team = ⟨0, 0, 0, 0⟩ := by
    simp only [lookupTargets, hnone2]
  refine ⟨?_, ?_, ?_, ?_⟩ <;>
    · show (if _ = (0 : ℚ) then _ else _) = _
      rw [ht]
      simp


/-- Concrete instance of `team_scorecard_zero_target`: with one deal for team
"A" and an empty targets dict, the theorem applies to the single output row
and gives `revenue_vs_target_pct = 0` despite revenue 100. -/
theorem team_scorecard_zero_target_witness :
    ((⟨"A", 100, 100, PVal.num 100, 0, 0, 0, 0, 0, PVal.num 0⟩ : ScoreRow) ∈
      team_scorecard [⟨"D1", some "A", 100, 0⟩] [] [] []) ∧
    (⟨"A", 100, 100, PVal.num 100, 0, 0, 0, 0, 0,
      PVal.num 0⟩ : ScoreRow).revenue_vs_target_pct = 0 := by
  have hout : team_scorecard [⟨"D1", some "A", 100, 0⟩] [] [] [] =
      [⟨"A", 100, 100, PVal.num 100, 0, 0, 0, 0, 0, PVal.num 0⟩] := by
    simp [team_scorecard, scoreFrom, deal_profitability, profitRows,
      by_team_profit, mergedRows, mergeRow, time_recorded_per_team, scoreRow,
      lookupTargets, sSort, sIns, dedupK, fdiv, PVal.fillna0, PVal.mul100, PVal.divQ]
  have hmem : (⟨"A", 100, 100, PVal.num 100, 0, 0, 0, 0, 0, PVal.num 0⟩ : ScoreRow) ∈
      team_scorecard [⟨"D1", some "A", 100, 0⟩] [] [] [] := by
    rw [hout]
    exact List.mem_singleton.mpr rfl
  exact ⟨hmem,
    ((team_scorecard_zero_target [⟨"D1", some "A", 100, 0⟩] [] [] [] _ hmem).2.2.2.2 rfl).1⟩

theorem sum_scoreRow_revenue (merged : List MRow) (tc S : ℚ)
    (tg : List (String × TeamTargets)) :
    ((merged.map (scoreRow tc S tg)).map ScoreRow.revenue).sum =
      (merged.map MRow.revenue).sum := by
  rw [List.map_map]
  exact congrArg List.sum (List.map_congr_left fun m _ => rfl)

theorem sum_scoreRow_collected (merged : List MRow) (tc S : ℚ)
    (tg : List (String × TeamTargets)) (hS : S = (merged.map MRow.revenue).sum)
    (hpos : 0 < S) :
    ((merged.map (scoreRow tc S tg)).map ScoreRow.collected_estimate).sum = tc := by
  have hSne : S ≠ 0 := ne_of_gt hpos
  rw [List.map_map]
  have h1 : merged.map (ScoreRow.collected_estimate ∘ scoreRow tc S tg) =
      merged.map fun m => tc / S * m.revenue := by
    apply List.map_congr_left
    intro m _
    show tc * (if S = 0 then 0 else m.revenue / S) = tc / S * m.revenue
    rw [if_neg hSne]
    ring
  rw [h1, List.sum_map_mul_left, ← hS, div_mul_cancel₀ tc hSne]

/-- Claim C3 (status: confirmed).  When the total revenue of the scorecard
rows is strictly positive, the proportional allocation splits
`total_collected = Σ invoices.amount_paid` exactly: the collected estimates
sum back to it (exact in ℚ, hence within any floating-point tolerance).  When
total revenue is 0, the guard on line 80 short-circuits the division and
every row's `collected_estimate` is 0. -/
theorem team_scorecard_collected_conservation (deals : List Deal)
    (tes : List TimeEntry) (invs : List Invoice)
    (tg : List (String × TeamTargets)) :
    (0 < ((team_scorecard deals tes invs tg).map ScoreRow.revenue).sum →
      ((team_scorecard deals tes invs tg).map ScoreRow.collected_estimate).sum =
        (invs.map Invoice.amount_paid).sum) ∧
    (((team_scorecard deals tes invs tg).map ScoreRow.revenue).sum = 0 →
      ∀ r ∈ team_scorecard deals tes invs tg, r.collected_estimate = 0) := by
  have hrev : ((team_scorecard deals tes invs tg).map ScoreRow.revenue).sum =
      ((mergedRows (by_team_profit (deal_profitability deals))
        (time_recorded_per_team tes)).map MRow.revenue).sum := by
    simp only [team_scorecard, scoreFrom]
    rw [((sSort_perm _ _).map ScoreRow.revenue).sum_eq]
    exact sum_scoreRow_revenue _ _ _ _
  have hcol : ((team_scorecard deals tes invs tg).map ScoreRow.collected_estimate).sum =
      (((mergedRows (by_team_profit (deal_profitability deals))
          (time_recorded_per_team tes)).map
        (scoreRow ((invs.map Invoice.amount_paid).sum)
          (((mergedRows (by_team_profit (deal_profitability deals))
            (time_recorded_per_team tes)).map MRow.revenue).sum) tg)).map
        ScoreRow.collected_estimate).sum := by
    simp only [team_scorecard, scoreFrom]
    exact ((sSort_perm _ _).map ScoreRow.collected_estimate).sum_eq
  constructor
  · intro hpos
    rw [hrev] at hpos
    rw [hcol]
    exact sum_scoreRow_collected _ _ _ _ rfl hpos
  · intro h0 r hr
    rw [hrev] at h0
    obtain ⟨m, hm, rfl⟩ := team_scorecard_row_spec hr
    show ((invs.map Invoice.amount_paid).sum) *
      (if ((mergedRows (by_team_profit (deal_profitability deals))
        (time_recorded_per_team tes)).map MRow.revenue).sum = 0 then 0
       else m.revenue / ((mergedRows (by_team_profit (deal_profitability deals))
        (time_recorded_per_team tes)).map MRow.revenue).sum) = 0
    rw [if_pos h0, mul_zero]

/-- Concrete instance of `team_scorecard_collected_conservation`: one deal of
value 100 for team "A" and one invoice with `amount_paid = 80`; total revenue
100 is positive and the collected estimates sum to 80. -/
theorem team_scorecard_collected_conservation_witness :
    (0 < ((team_scorecard [⟨"D1", some "A", 100, 0⟩] []
        [⟨some ⟨2024, 1⟩, 100, 80, 20⟩] []).map ScoreRow.revenue).sum) ∧
    ((team_scorecard [⟨"D1", some "A", 100, 0⟩] []
        [⟨some ⟨2024, 1⟩, 100, 80, 20⟩] []).map ScoreRow.collected_estimate).sum =
      (([⟨some ⟨2024, 1⟩, 100, 80, 20⟩] : List Invoice).map Invoice.amount_paid).sum := by
  have hpos : 0 < ((team_scorecard [⟨"D1", some "A", 100, 0⟩] []
      [⟨some ⟨2024, 1⟩, 100, 80, 20⟩] []).map ScoreRow.revenue).sum := by
    have hout : team_scorecard [⟨"D1", some "A", 100, 0⟩] []
        [⟨some ⟨2024, 1⟩, 100, 80, 20⟩] [] =
        [⟨"A", 100, 100, PVal.num 100, 0, 80, 0, 0, 0, PVal.num 0⟩] := by
      simp [team_scorecard, scoreFrom, deal_profitability, profitRows,
        by_team_profit, mergedRows, mergeRow, time_recorded_per_team, scoreRow,
        lookupTargets, sSort, sIns, dedupK, fdiv, PVal.fillna0, PVal.mul100, PVal.divQ]
    rw [hout]
    norm_num
  exact ⟨hpos,
    (team_scorecard_collected_conservation [⟨"D1", some "A", 100, 0⟩] []
      [⟨some ⟨2024, 1⟩, 100, 80, 20⟩] []).1 hpos⟩



theorem store_lookup_fresh (σ : Store) (x y : PyObj) {n : Nat} (hn : n < σ.length) :
    ((σ ++ [x]).set σ.length y)[n]? = σ[n]? := by
  rw [List.getElem?_set_ne (Nat.ne_of_gt hn)]
  rw [List.getElem?_append]
  rw [if_pos hn]

theorem store_lookup_new (σ : Store) (x y : PyObj) :
    ((σ ++ [x]).set σ.length y)[σ.length]? = some y := by
  apply List.getElem?_set_self
  simp

theorem store_lookup_fresh2 (σ : Store) (x y z : PyObj) {n : Nat} (hn : n < σ.length) :
    (((σ ++ [x]).set σ.length y).set σ.length z)[n]? = σ[n]? := by
  rw [List.getElem?_set_ne (Nat.ne_of_gt hn)]
  exact store_lookup_fresh σ x y hn

theorem store_lookup_new2 (σ : Store) (x y z : PyObj) :
    (((σ ++ [x]).set σ.length y).set σ.length z)[σ.length]? = some z := by
  apply List.getElem?_set_self
  simp

theorem monthlyBillingS_run {σ : Store} {i : Nat} {v : List Invoice}
    (hv : σ[i]? = some (.invs v)) :
    monthlyBillingS σ i = some
      ((σ ++ [PyObj.invs v]).set σ.length
        (PyObj.invsMonth (v.map fun x => (x, monthKey x.date))),
       monthly_billing v) := by
  simp only [monthlyBillingS, hv, store_lookup_new]
  rfl

theorem yearlyBillingS_run {σ : Store} {i : Nat} {v : List Invoice}
    (hv : σ[i]? = some (.invs v)) :
    yearlyBillingS σ i = some
      ((σ ++ [PyObj.invs v]).set σ.length
        (PyObj.invsYear (v.map fun x => (x, yearKey x.date))),
       yearly_billing v) := by
  simp only [yearlyBillingS, hv, store_lookup_new]
  rfl

theorem timeRecordedS_run {σ : Store} {i : Nat} {v : List TimeEntry}
    (hv : σ[i]? = some (.times v)) :
    timeRecordedS σ i = some (σ, time_recorded_per_team v) := by
  simp only [timeRecordedS, hv]

theorem deal_profitabilityS_run {σ : Store} {i : Nat} {v : List Deal}
    (hv : σ[i]? = some (.deals v)) :
    deal_profitabilityS σ i = some
      (((σ ++ [PyObj.deals v]).set σ.length
          (PyObj.dealsProfit1 (v.map fun x => (x, x.deal_value - x.cost_to_deliver)))).set
        σ.length (PyObj.dealsProfit (profitRows v)),
       deal_profitability v) := by
  simp only [deal_profitabilityS, hv, store_lookup_new, store_lookup_new2]
  rfl

theorem team_scorecardS_run {σ : Store} {dI tI iI gI : Nat} {dl : List Deal}
    {te : List TimeEntry} {inv : List Invoice} {tg : List (String × TeamTargets)}
    (hd : σ[dI]? = some (.deals dl)) (ht : σ[tI]? = some (.times te))
    (hi : σ[iI]? = some (.invs inv)) (hg : σ[gI]? = some (.tmap tg)) :
    team_scorecardS σ dI tI iI gI = some
      (((σ ++ [PyObj.deals dl]).set σ.length
          (PyObj.dealsProfit1 (dl.map fun x => (x, x.deal_value - x.cost_to_deliver)))).set
        σ.length (PyObj.dealsProfit (profitRows dl)),
       team_scorecard dl te inv tg) := by
  obtain ⟨htl, _⟩ := List.getElem?_eq_some.mp ht
  obtain ⟨hil, _⟩ := List.getElem?_eq_some.mp hi
  obtain ⟨hgl, _⟩ := List.getElem?_eq_some.mp hg
  simp only [team_scorecardS, deal_profitabilityS_run hd,
    store_lookup_fresh2 σ _ _ _ htl, store_lookup_fresh2 σ _ _ _ hil,
    store_lookup_fresh2 σ _ _ _ hgl, ht, hi, hg]
  rfl

/-- Claim C9 (status: confirmed).  Against an explicit heap of frames, each of
the five public functions leaves every pre-existing store entry — its input
tables and the targets dict included — unchanged (the copies made on lines
17, 27 and 45 receive all column writes), returns exactly the pure function
of the input values, and a second call on the resulting store returns the
same output, so two calls on identical inputs agree. -/
theorem aggregators_pure (σ : Store) (i : Nat) :
    (∀ v : List Invoice, σ[i]? = some (.invs v) →
      ∃ σ₂, monthlyBillingS σ i = some (σ₂, monthly_billing v) ∧
        (∀ n, n < σ.length → σ₂[n]? = σ[n]?) ∧
        ∃ σ₃, monthlyBillingS σ₂ i = some (σ₃, monthly_billing v)) ∧
    (∀ v : List Invoice, σ[i]? = some (.invs v) →
      ∃ σ₂, yearlyBillingS σ i = some (σ₂, yearly_billing v) ∧
        (∀ n, n < σ.length → σ₂[n]? = σ[n]?) ∧
        ∃ σ₃, yearlyBillingS σ₂ i = some (σ₃, yearly_billing v)) ∧
    (∀ v : List TimeEntry, σ[i]? = some (.times v) →
      timeRecordedS σ i = some (σ, time_recorded_per_team v)) ∧
    (∀ v : List Deal, σ[i]? = some (.deals v) →
      ∃ σ₂, deal_profitabilityS σ i = some (σ₂, deal_profitability v) ∧
        (∀ n, n < σ.length → σ₂[n]? = σ[n]?) ∧
        ∃ σ₃, deal_profitabilityS σ₂ i = some (σ₃, deal_profitability v)) ∧
    (∀ (dI tI iI gI : Nat) (dl : List Deal) (te : List TimeEntry)
        (inv : List Invoice) (tg : List (String × TeamTargets)),
      σ[dI]? = some (.deals dl) → σ[tI]? = some (.times te) →
      σ[iI]? = some (.invs inv) → σ[gI]? = some (.tmap tg) →
      ∃ σ₂, team_scorecardS σ dI tI iI gI = some (σ₂, team_scorecard dl te inv tg) ∧
        (∀ n, n < σ.length → σ₂[n]? = σ[n]?) ∧
        ∃ σ₃, team_scorecardS σ₂ dI tI iI gI = some (σ₃, team_scorecard dl te inv tg)) := by
  refine ⟨?_, ?_, ?_, ?_, ?_⟩
  · intro v hv
    obtain ⟨hlen, _⟩ := List.getElem?_eq_some.mp hv
    refine ⟨_, monthlyBillingS_run hv, fun n hn => store_lookup_fresh σ _ _ hn, ?_⟩
    have hv2 : ((σ ++ [PyObj.invs v]).set σ.length
        (PyObj.invsMonth (v.map fun x => (x, monthKey x.date))))[i]? =
        some (PyObj.invs v) := by
      rw [store_lookup_fresh σ _ _ hlen]
      exact hv
    exact ⟨_, monthlyBillingS_run hv2⟩
  · intro v hv
    obtain ⟨hlen, _⟩ := List.getElem?_eq_some.mp hv
    refine ⟨_, yearlyBillingS_run hv, fun n hn => store_lookup_fresh σ _ _ hn, ?_⟩
    have hv2 : ((σ ++ [PyObj.invs v]).set σ.length
        (PyObj.invsYear (v.map fun x => (x, yearKey x.date))))[i]? =
        some (PyObj.invs v) := by
      rw [store_lookup_fresh σ _ _ hlen]
      exact hv
    exact ⟨_, yearlyBillingS_run hv2⟩
  · intro v hv
    exact timeRecordedS_run hv
  · intro v hv
    obtain ⟨hlen, _⟩ := List.getElem?_eq_some.mp hv
    refine ⟨_, deal_profitabilityS_run hv, fun n hn => store_lookup_fresh2 σ _ _ _ hn, ?_⟩
    have hv2 : (((σ ++ [PyObj.deals v]).set σ.length
        (PyObj.dealsProfit1 (v.map fun x => (x, x.deal_value - x.cost_to_deliver)))).set
          σ.length (PyObj.dealsProfit (profitRows v)))[i]? = some (PyObj.deals v) := by
      rw [store_lookup_fresh2 σ _ _ _ hlen]
      exact hv
    exact ⟨_, deal_profitabilityS_run hv2⟩
  · intro dI tI iI gI dl te inv tg hd ht hi hg
    obtain ⟨hdl, _⟩ := List.getElem?_eq_some.mp hd
    obtain ⟨htl, _⟩ := List.getElem?_eq_some.mp ht
    obtain ⟨hil, _⟩ := List.getElem?_eq_some.mp hi
    obtain ⟨hgl, _⟩ := List.getElem?_eq_some.mp hg
    refine ⟨_, team_scorecardS_run hd ht hi hg,
      fun n hn => store_lookup_fresh2 σ _ _ _ hn, ?_⟩
    have hd2 := (store_lookup_fresh2 σ (PyObj.deals dl)
      (PyObj.dealsProfit1 (dl.map fun x => (x, x.deal_value - x.cost_to_deliver)))
      (PyObj.dealsProfit (profitRows dl)) hdl).trans hd
    have ht2 := (store_lookup_fresh2 σ (PyObj.deals dl)
      (PyObj.dealsProfit1 (dl.map fun x => (x, x.deal_value - x.cost_to_deliver)))
      (PyObj.dealsProfit (profitRows dl)) htl).trans ht
    have hi2 := (store_lookup_fresh2 σ (PyObj.deals dl)
      (PyObj.dealsProfit1 (dl.map fun x => (x, x.deal_value - x.cost_to_deliver)))
      (PyObj.dealsProfit (profitRows dl)) hil).trans hi
    have hg2 := (store_lookup_fresh2 σ (PyObj.deals dl)
      (PyObj.dealsProfit1 (dl.map fun x => (x, x.deal_value - x.cost_to_deliver)))
      (PyObj.dealsProfit (profitRows dl)) hgl).trans hg
    exact ⟨_, team_scorecardS_run hd2 ht2 hi2 hg2⟩

/-- Concrete instance of `aggregators_pure` on a four-object heap of empty
tables: every call succeeds and returns the pure function of the stored
value. -/
theorem aggregators_pure_witness :
    (∃ p, monthlyBillingS [PyObj.invs [], PyObj.times [], PyObj.deals [],
        PyObj.tmap []] 0 = some p ∧ p.2 = monthly_billing []) ∧
    (∃ p, yearlyBillingS [PyObj.invs [], PyObj.times [], PyObj.deals [],
        PyObj.tmap []] 0 = some p ∧ p.2 = yearly_billing []) ∧
    (∃ p, timeRecordedS [PyObj.invs [], PyObj.times [], PyObj.deals [],
        PyObj.tmap []] 1 = some p ∧ p.2 = time_recorded_per_team []) ∧
    (∃ p, deal_profitabilityS [PyObj.invs [], PyObj.times [], PyObj.deals [],
        PyObj.tmap []] 2 = some p ∧ p.2 = deal_profitability []) ∧
    (∃ p, team_scorecardS [PyObj.invs [], PyObj.times [], PyObj.deals [],
        PyObj.tmap []] 2 1 0 3 = some p ∧ p.2 = team_scorecard [] [] [] []) := by
  obtain ⟨σa, ha, _, _⟩ := (aggregators_pure [PyObj.invs [], PyObj.times [],
    PyObj.deals [], PyObj.tmap []] 0).1 [] rfl
  obtain ⟨σb, hb, _, _⟩ := (aggregators_pure [PyObj.invs [], PyObj.times [],
    PyObj.deals [], PyObj.tmap []] 0).2.1 [] rfl
  have hc := (aggregators_pure [PyObj.invs [], PyObj.times [],
    PyObj.deals [], PyObj.tmap []] 1).2.2.1 [] rfl
  obtain ⟨σd, hdd, _, _⟩ := (aggregators_pure [PyObj.invs [], PyObj.times [],
    PyObj.deals [], PyObj.tmap []] 2).2.2.2.1 [] rfl
  obtain ⟨σe, he, _, _⟩ := (aggregators_pure [PyObj.invs [], PyObj.times [],
    PyObj.deals [], PyObj.tmap []] 0).2.2.2.2 2 1 0 3 [] [] [] [] rfl rfl rfl rfl
  exact ⟨⟨_, ha, rfl⟩, ⟨_, hb, rfl⟩, ⟨_, hc, rfl⟩, ⟨_, hdd, rfl⟩, ⟨_, he, rfl⟩⟩


end Dashboard
